import Mathlib

/-!
Shallow embedding of the MSR2026 pull-request outcome/feature pipeline.

The embedded code:
* `src/build_rq2_features.py` — the DuckDB SQL views `rq2_base` (outcome
  labeler), `f_commits`, `f_changes`, `f_forcepush`, `f_reviews` (feature
  extractors), the `rq2_features` assembling left joins, and the pandas/numpy
  transform `log1p_hours_to_first_review`.
* `src/run_rq1.py` — `wilson_ci` and the strict-cast labeling query
  `RQ1_LABELED_SQL`.
* `src/run_rq2.py` — `tidy_or_table` over a fitted model's coefficient vector.

Modelling conventions:
* SQL relations are lists of structure rows; row order is never significant
  for the properties proved here.
* Timestamps are abstracted to whole hours since an epoch (`Int`), so
  DuckDB `DATEDIFF('hour', a, b)` is `b - a`.  A raw timestamp cell is
  `RawCell`: SQL NULL, a parsable date-time, or an unparsable value.
* SQL NULL on scalar columns is `Option`.
* Floating-point arithmetic is modelled over `ℝ`; the NaN triple returned by
  `wilson_ci` for `n = 0` is modelled as `Option.none`.
-/

namespace MSR2026

/-- A raw cell of a timestamp column: SQL NULL, a parsable date-time
(abstracted to whole hours since an epoch), or an unparsable value carrying
its source text. -/
inductive RawCell where
  | null : RawCell
  | ts : Int → RawCell
  | unparsable : String → RawCell
deriving DecidableEq

/-- DuckDB `TRY_CAST(x AS TIMESTAMP)` (build_rq2_features.py lines 78-80,
142): NULL stays NULL and an unparsable value degrades to NULL; never
raises. -/
def tryCastTimestamp : RawCell → Option Int
  | .null => none
  | .ts t => some t
  | .unparsable _ => none

/-- DuckDB `CAST(x AS TIMESTAMP)` (run_rq1.py lines 108-110): NULL stays
NULL, but an unparsable value raises a conversion error that aborts the
query. -/
def castTimestamp : RawCell → Except String (Option Int)
  | .null => .ok none
  | .ts t => .ok (some t)
  | .unparsable s => .error s

/-- One row of the raw `pull_request` relation as read by
build_rq2_features.py (columns id, repo_id, user_id, created_at, closed_at,
merged_at). -/
structure PullRequestRow where
  id : Nat
  repo_id : Nat
  user_id : Nat
  created_at : RawCell
  closed_at : RawCell
  merged_at : RawCell
deriving DecidableEq

/-- One row of the raw `pr_task_type` relation (columns id, agent; agent is
nullable). -/
structure TaskTypeRow where
  id : Nat
  agent : Option String
deriving DecidableEq

/-- One row of the raw `pr_commits` relation. -/
structure CommitRow where
  pr_id : Nat
  sha : Option String
deriving DecidableEq

/-- One row of the raw `pr_commit_details` relation. -/
structure CommitDetailRow where
  pr_id : Nat
  filename : Option String
  additions : Option Int
  deletions : Option Int
deriving DecidableEq

/-- One row of the raw `pr_reviews` relation. -/
structure ReviewRawRow where
  pr_id : Nat
  submitted_at : RawCell
deriving DecidableEq

/-- One row of the raw `pr_timeline` relation. -/
structure TimelineRow where
  pr_id : Nat
  event : Option String
  message : Option String
deriving DecidableEq

/-- The outcome CASE expression shared by build_rq2_features.py lines 92-96
and run_rq1.py lines 111-115: merged timestamp present beats everything,
then closed-and-not-merged, else open. -/
def outcomeOf (closed_ts merged_ts : Option Int) : String :=
  if merged_ts.isSome then "merged"
  else if closed_ts.isSome && merged_ts.isNone then "closed_unmerged"
  else "open"

/-- `CASE WHEN merged_ts IS NOT NULL THEN 1 ELSE 0 END` (build_rq2_features
line 97, run_rq1 line 116). -/
def yMergedOf (merged_ts : Option Int) : Nat :=
  if merged_ts.isSome then 1 else 0

/-- The `pr` CTE of `rq2_base`: parsed timestamps via TRY_CAST. -/
structure PrView where
  pr_id : Nat
  repo_id : Nat
  author_user_id : Nat
  created_ts : Option Int
  closed_ts : Option Int
  merged_ts : Option Int
deriving DecidableEq

/-- Projection of a raw `pull_request` row through the `pr` CTE of
`rq2_base` (build_rq2_features.py lines 73-82). -/
def prView (p : PullRequestRow) : PrView :=
  ⟨p.id, p.repo_id, p.user_id, tryCastTimestamp p.created_at,
   tryCastTimestamp p.closed_at, tryCastTimestamp p.merged_at⟩

/-- The `agentic` CTE (build_rq2_features.py lines 66-72):
`SELECT DISTINCT t.id, t.agent FROM pr_task_type t WHERE t.agent IS NOT
NULL`. -/
def agentic (tasks : List TaskTypeRow) : List (Nat × String) :=
  (tasks.filterMap (fun t => t.agent.map (fun a => (t.id, a)))).dedup

/-- One row of the `labeled` CTE / the `rq2_base` view. -/
structure BaseRow where
  pr_id : Nat
  agent : String
  repo_id : Nat
  author_user_id : Nat
  created_ts : Option Int
  closed_ts : Option Int
  merged_ts : Option Int
  outcome : String
  y_merged : Nat
deriving DecidableEq

/-- Row constructor of the `labeled` CTE (build_rq2_features.py lines
83-100). -/
def mkBaseRow (a : Nat × String) (p : PrView) : BaseRow :=
  ⟨a.1, a.2, p.repo_id, p.author_user_id, p.created_ts, p.closed_ts,
   p.merged_ts, outcomeOf p.closed_ts p.merged_ts, yMergedOf p.merged_ts⟩

/-- The `labeled` CTE: inner join of `agentic` with `pr` on the pull-request
identifier (`JOIN pr ON pr.pr_id = a.pr_id`). -/
def labeled (tasks : List TaskTypeRow) (prs : List PullRequestRow) :
    List BaseRow :=
  (agentic tasks).flatMap (fun a =>
    ((prs.map prView).filter (fun p => p.pr_id == a.1)).map
      (fun p => mkBaseRow a p))

/-- The `rq2_base` view (build_rq2_features.py lines 64-104): labeled rows
restricted to `outcome IN ('merged','closed_unmerged')`. -/
def rq2_base (tasks : List TaskTypeRow) (prs : List PullRequestRow) :
    List BaseRow :=
  (labeled tasks prs).filter
    (fun b => b.outcome == "merged" || b.outcome == "closed_unmerged")

/-- The distinct grouping keys of a `GROUP BY pr_id` aggregation. -/
def sqlKeys (rows : List ρ) (key : ρ → Nat) : List Nat :=
  (rows.map key).dedup

/-- One row of the `f_commits` view. -/
structure CommitsAgg where
  pr_id : Nat
  n_commits : Nat
deriving DecidableEq

/-- The `f_commits` view (build_rq2_features.py lines 108-115):
`COUNT(DISTINCT sha)` per pr_id (COUNT DISTINCT ignores NULL shas). -/
def f_commits (commits : List CommitRow) : List CommitsAgg :=
  (sqlKeys commits (·.pr_id)).map (fun k =>
    ⟨k, (((commits.filter (fun c => c.pr_id == k)).filterMap
          (·.sha)).dedup).length⟩)

/-- Case-insensitive substring containment, the semantics of SQL
`x ILIKE '%pat%'` for a literal pattern without wildcards inside. -/
def containsCI (hay pat : String) : Bool :=
  2 ≤ ((hay.toLower).splitOn (pat.toLower)).length

/-- The test-file CASE of `f_changes` (build_rq2_features.py lines 126-131):
NULL filenames make the ILIKEs NULL, hence the CASE yields 0. -/
def isTestFile : Option String → Bool
  | some f => containsCI f "test" || containsCI f "spec" || containsCI f "__tests__"
  | none => false

/-- One row of the `f_changes` view. -/
structure ChangesAgg where
  pr_id : Nat
  add_lines : Int
  del_lines : Int
  delta_loc : Int
  n_files : Nat
  tests_added : Nat
deriving DecidableEq

/-- The `f_changes` view (build_rq2_features.py lines 118-134): sums of
COALESCEd additions/deletions, count of distinct non-null filenames, and a
MAX over the per-row test-file flag (each group is nonempty, so the fold
with neutral 0 agrees with SQL MAX). -/
def f_changes (details : List CommitDetailRow) : List ChangesAgg :=
  (sqlKeys details (·.pr_id)).map (fun k =>
    let rs := details.filter (fun d => d.pr_id == k)
    let adds := (rs.map (fun d => d.additions.getD 0)).sum
    let dels := (rs.map (fun d => d.deletions.getD 0)).sum
    ⟨k, adds, dels, adds + dels,
     ((rs.filterMap (·.filename)).dedup).length,
     (rs.map (fun d => if isTestFile d.filename then 1 else 0)).foldr max 0⟩)

/-- The force-push CASE of `f_forcepush` (build_rq2_features.py lines
164-168): a NULL event makes its ILIKE NULL, and `NULL OR false` is not
true, so the CASE yields 0 unless a non-null field matches. -/
def isForceEvent (event message : Option String) : Bool :=
  (match event with
   | some e => containsCI e "force"
   | none => false)
  || containsCI (message.getD "") "force"

/-- One row of the `f_forcepush` view. -/
structure ForceAgg where
  pr_id : Nat
  force_push : Nat
deriving DecidableEq

/-- The `f_forcepush` view (build_rq2_features.py lines 160-172). -/
def f_forcepush (timeline : List TimelineRow) : List ForceAgg :=
  (sqlKeys timeline (·.pr_id)).map (fun k =>
    ⟨k, ((timeline.filter (fun t => t.pr_id == k)).map
          (fun t => if isForceEvent t.event t.message then 1 else 0)).foldr
        max 0⟩)

/-- SQL `MIN` over a nullable column: NULLs are ignored; all-NULL (or empty)
input yields NULL. -/
def sqlMinInt (l : List (Option Int)) : Option Int :=
  (l.filterMap id).foldr
    (fun x acc =>
      match acc with
      | none => some x
      | some y => some (min x y)) none

/-- One row of the `first_review` CTE. -/
structure FirstReviewAgg where
  pr_id : Nat
  first_review_ts : Option Int
deriving DecidableEq

/-- The `first_review` CTE (build_rq2_features.py lines 139-145):
`MIN(TRY_CAST(submitted_at AS TIMESTAMP))` per pr_id. -/
def first_review (reviews : List ReviewRawRow) : List FirstReviewAgg :=
  (sqlKeys reviews (·.pr_id)).map (fun k =>
    ⟨k, sqlMinInt ((reviews.filter (fun r => r.pr_id == k)).map
          (fun r => tryCastTimestamp r.submitted_at))⟩)

/-- DuckDB `DATEDIFF('hour', a, b)` with timestamps abstracted to whole
hours. -/
def dateDiffHour (a b : Int) : Int := b - a

/-- One row of the `f_reviews` view. -/
structure ReviewAgg where
  pr_id : Nat
  has_review : Nat
  hours_to_first_review : Option Int
deriving DecidableEq

/-- Row constructor of `f_reviews` (build_rq2_features.py lines 146-153): a
missing `first_review` match leaves `first_review_ts` NULL; the elapsed
hours are only defined when both the first review timestamp and the base
row's created timestamp are non-null. -/
def mkReviewRow (b : BaseRow) (fr : Option FirstReviewAgg) : ReviewAgg :=
  let ts := fr.bind (·.first_review_ts)
  ⟨b.pr_id,
   if ts.isSome then 1 else 0,
   match ts, b.created_ts with
   | some t, some c => some (dateDiffHour c t)
   | _, _ => none⟩

/-- SQL LEFT JOIN: each left row produces one output row per matching right
row, or a single row with a NULL right side when nothing matches. -/
def leftJoin (L : List α) (R : List β) (cond : α → β → Bool)
    (comb : α → Option β → γ) : List γ :=
  L.flatMap (fun a =>
    match R.filter (fun b => cond a b) with
    | [] => [comb a none]
    | m => m.map (fun b => comb a (some b)))

/-- The `f_reviews` view (build_rq2_features.py lines 137-156):
`FROM rq2_base b LEFT JOIN first_review fr ON fr.pr_id = b.pr_id` — one row
per `rq2_base` row, not per distinct pr_id. -/
def f_reviews (base : List BaseRow) (reviews : List ReviewRawRow) :
    List ReviewAgg :=
  leftJoin base (first_review reviews) (fun b fr => fr.pr_id == b.pr_id)
    mkReviewRow

/-- The commit-bucket CASE (build_rq2_features.py lines 184-190), as a total
function of the COALESCEd commit count: when `c.n_commits` is NULL the
first branch already fires via `COALESCE(c.n_commits, 0) <= 1`, so the CASE
equals this function applied to `COALESCE(c.n_commits, 0)`. -/
def commit_bucket (n : Nat) : Nat :=
  if n ≤ 1 then 1
  else if n = 2 then 2
  else if n = 3 then 3
  else if n = 4 then 4
  else 5

/-- One row of the assembled `rq2_features` table (before the pandas
transform columns are appended). -/
structure FeatureRow where
  pr_id : Nat
  repo_id : Nat
  agent : String
  y_merged : Nat
  n_commits : Nat
  commit_bucket : Nat
  delta_loc : Int
  n_files : Nat
  tests_added : Nat
  force_push : Nat
  has_review : Nat
  hours_to_first_review : Option Int
deriving DecidableEq

/-- The SELECT list of `rq2_features` (build_rq2_features.py lines 177-199):
COALESCE-to-0 for every count/flag feature, `hours_to_first_review` left
NULL when the review block is NULL. -/
def mkFeatureRow :
    (((BaseRow × Option CommitsAgg) × Option ChangesAgg) × Option ForceAgg) ×
        Option ReviewAgg →
      FeatureRow
  | ((((b, c), ch), fp), rv) =>
    { pr_id := b.pr_id
      repo_id := b.repo_id
      agent := b.agent
      y_merged := b.y_merged
      n_commits := (c.map (·.n_commits)).getD 0
      commit_bucket := commit_bucket ((c.map (·.n_commits)).getD 0)
      delta_loc := (ch.map (·.delta_loc)).getD 0
      n_files := (ch.map (·.n_files)).getD 0
      tests_added := (ch.map (·.tests_added)).getD 0
      force_push := (fp.map (·.force_push)).getD 0
      has_review := (rv.map (·.has_review)).getD 0
      hours_to_first_review := rv.bind (·.hours_to_first_review) }

/-- The `rq2_features` table (build_rq2_features.py lines 175-206): the
base relation left-joined in turn with each extractor block, all on
`b.pr_id`. -/
def rq2_features (tasks : List TaskTypeRow) (prs : List PullRequestRow)
    (commits : List CommitRow) (details : List CommitDetailRow)
    (timeline : List TimelineRow) (reviews : List ReviewRawRow) :
    List FeatureRow :=
  let base := rq2_base tasks prs
  let j1 := leftJoin base (f_commits commits)
    (fun b c => c.pr_id == b.pr_id) Prod.mk
  let j2 := leftJoin j1 (f_changes details)
    (fun x ch => ch.pr_id == x.1.pr_id) Prod.mk
  let j3 := leftJoin j2 (f_forcepush timeline)
    (fun x fp => fp.pr_id == x.1.1.pr_id) Prod.mk
  let j4 := leftJoin j3 (f_reviews base reviews)
    (fun x rv => rv.pr_id == x.1.1.1.pr_id) Prod.mk
  j4.map mkFeatureRow

/-- `math.log1p` / `numpy.log1p` over the reals. -/
noncomputable def log1p (x : ℝ) : ℝ := Real.log (1 + x)

/-- pandas `Series.clip(lower=0)` on one integer value. -/
def clipLower0 (h : Int) : Int := max h 0

/-- The transform `np.where(hours.notna(), np.log1p(hours.clip(lower=0)),
0.0)` (build_rq2_features.py lines 218-222) on one row's value. -/
noncomputable def log1p_hours_to_first_review : Option Int → ℝ
  | some h => log1p ((clipLower0 h : Int) : ℝ)
  | none => 0

/-- `wilson_ci` (run_rq1.py lines 75-83).  The Python function returns the
triple (p, center - half, center + half), and the NaN triple for `n = 0` is
modelled as `none`. -/
noncomputable def wilson_ci (k n : Nat) (z : ℝ) : Option (ℝ × ℝ × ℝ) :=
  if n = 0 then none
  else
    let p : ℝ := (k : ℝ) / (n : ℝ)
    let denom : ℝ := 1 + z * z / (n : ℝ)
    let center : ℝ := (p + z * z / (2 * (n : ℝ))) / denom
    let half : ℝ :=
      (z * Real.sqrt ((p * (1 - p) + z * z / (4 * (n : ℝ))) / (n : ℝ))) / denom
    some (p, center - half, center + half)

/-- One coefficient of a fitted logistic model, as exposed by statsmodels:
`fit_logit_cluster` (run_rq2.py lines 11-19) fits with
`cov_type="cluster"` grouped by repository, so `bse` is the cluster-robust
standard error and `pvalue` the two-sided p-value from that covariance. -/
structure CoefEntry where
  term : String
  coef : ℝ
  bse : ℝ
  pvalue : ℝ

/-- One row of the emitted odds-ratio table. -/
structure ORRow where
  term : String
  coef : ℝ
  odds_ratio : ℝ
  ci_low : ℝ
  ci_high : ℝ
  p : ℝ

/-- `tidy_or_table` (run_rq2.py lines 23-41): odds ratio and Wald bounds
computed by exponentiating on the log scale. -/
noncomputable def tidy_or_table (res : List CoefEntry) : List ORRow :=
  res.map (fun e =>
    ⟨e.term, e.coef, Real.exp e.coef, Real.exp (e.coef - 1.96 * e.bse),
     Real.exp (e.coef + 1.96 * e.bse), e.pvalue⟩)

/-- One row of the raw `pull_request` relation as read by run_rq1.py, which
takes `agent` directly from `pull_request`. -/
structure Rq1PullRequestRow where
  id : Nat
  agent : Option String
  repo_id : Nat
  created_at : RawCell
  closed_at : RawCell
  merged_at : RawCell
deriving DecidableEq

/-- One row of the `rq1_labeled` view. -/
structure Rq1Row where
  pr_id : Nat
  agent : Option String
  repo_id : Nat
  created_at : Option Int
  closed_at : Option Int
  merged_at : Option Int
  outcome : String
  merged : Nat
  closed_unmerged : Nat
  open_flag : Nat
deriving DecidableEq

/-- One row of `RQ1_LABELED_SQL` (run_rq1.py lines 102-122).  The strict
`CAST(... AS TIMESTAMP)` raises on the first unparsable value. -/
def rq1LabelRow (p : Rq1PullRequestRow) : Except String Rq1Row := do
  let c ← castTimestamp p.created_at
  let cl ← castTimestamp p.closed_at
  let m ← castTimestamp p.merged_at
  pure ⟨p.id, p.agent, p.repo_id, c, cl, m, outcomeOf cl m, yMergedOf m,
    if cl.isSome && m.isNone then 1 else 0,
    if cl.isNone && m.isNone then 1 else 0⟩

/-- The `rq1_labeled` view: a conversion error on any row aborts the whole
query. -/
def rq1_labeled (prs : List Rq1PullRequestRow) :
    Except String (List Rq1Row) :=
  prs.mapM rq1LabelRow

/-- The raw `pull_request` input as a table: the flags record whether each
required timestamp column exists in the source file (referencing a missing
column in the SQL is a binder error that fails the run before any row is
processed). -/
structure PullRequestTable where
  has_created_at : Bool
  has_closed_at : Bool
  has_merged_at : Bool
  rows : List PullRequestRow
deriving DecidableEq

/-- Running the `rq2_base` labeling query against a raw table: fails
up-front iff a required timestamp column is absent, and otherwise labels
every row via the permissive TRY_CAST. -/
def rq2BaseRun (tasks : List TaskTypeRow) (t : PullRequestTable) :
    Except String (List BaseRow) :=
  if t.has_created_at && t.has_closed_at && t.has_merged_at then
    .ok (rq2_base tasks t.rows)
  else .error "Binder Error: column not found"

section JoinLemmas

variable {α β γ ρ σ : Type*}

lemma length_filter_le_one_of_nodup_keys {l : List β} {key : β → Nat}
    (h : (l.map key).Nodup) (k : Nat) :
    (l.filter (fun b => key b == k)).length ≤ 1 := by
  induction l with
  | nil => simp
  | cons b t ih =>
    rw [List.map_cons, List.nodup_cons] at h
    by_cases hb : key b = k
    · have ht : t.filter (fun x => key x == k) = [] := by
        rw [List.filter_eq_nil_iff]
        intro x hx hxk
        rw [beq_iff_eq] at hxk
        exact h.1 (hb ▸ hxk ▸ List.mem_map_of_mem key hx)
      simp [List.filter_cons, hb, ht]
    · simp only [List.filter_cons, beq_iff_eq, hb, if_false]
      exact ih h.2

lemma one_le_length_filter_of_mem_map {l : List β} {key : β → Nat} {k : Nat}
    (h : k ∈ l.map key) : 1 ≤ (l.filter (fun b => key b == k)).length := by
  rw [List.mem_map] at h
  obtain ⟨b, hb, hk⟩ := h
  have hmem : b ∈ l.filter (fun b => key b == k) :=
    List.mem_filter.mpr ⟨hb, by simp [hk]⟩
  exact List.length_pos.mpr (List.ne_nil_of_mem hmem)

lemma leftJoin_cons {a : α} {L : List α} {R : List β} {cond : α → β → Bool}
    {comb : α → Option β → γ} :
    leftJoin (a :: L) R cond comb =
      (match R.filter (fun b => cond a b) with
        | [] => [comb a none]
        | m => m.map (fun b => comb a (some b))) ++ leftJoin L R cond comb := by
  simp [leftJoin]

lemma leftJoin_length {L : List α} {R : List β} {cond : α → β → Bool}
    {comb : α → Option β → γ}
    (h : ∀ a ∈ L, (R.filter (fun b => cond a b)).length ≤ 1) :
    (leftJoin L R cond comb).length = L.length := by
  induction L with
  | nil => rfl
  | cons a t ih =>
    have ha := h a (List.mem_cons_self a t)
    have hrec := ih (fun x hx => h x (List.mem_cons_of_mem a hx))
    rw [leftJoin_cons, List.length_append, hrec]
    rcases hfil : R.filter (fun b => cond a b) with _ | ⟨b, rest⟩
    · simp; omega
    · rw [hfil] at ha
      simp only [List.length_cons] at ha
      have : rest = [] := List.eq_nil_of_length_eq_zero (by omega)
      subst this
      simp; omega

lemma leftJoin_map_key {L : List α} {R : List β} {cond : α → β → Bool}
    {comb : α → Option β → γ} {keyG : γ → Nat} {keyA : α → Nat}
    (hcomb : ∀ a ob, keyG (comb a ob) = keyA a)
    (h : ∀ a ∈ L, (R.filter (fun b => cond a b)).length ≤ 1) :
    (leftJoin L R cond comb).map keyG = L.map keyA := by
  induction L with
  | nil => rfl
  | cons a t ih =>
    have ha := h a (List.mem_cons_self a t)
    have hrec := ih (fun x hx => h x (List.mem_cons_of_mem a hx))
    rw [leftJoin_cons, List.map_append, hrec, List.map_cons]
    rcases hfil : R.filter (fun b => cond a b) with _ | ⟨b, rest⟩
    · simp [hcomb]
    · rw [hfil] at ha
      simp only [List.length_cons] at ha
      have : rest = [] := List.eq_nil_of_length_eq_zero (by omega)
      subst this
      simp [hcomb]

lemma leftJoin_mem {L : List α} {R : List β} {cond : α → β → Bool}
    {comb : α → Option β → γ} {g : γ}
    (hg : g ∈ leftJoin L R cond comb) :
    ∃ a ∈ L, ∃ ob : Option β, g = comb a ob ∧
      ∀ b, ob = some b → b ∈ R ∧ cond a b = true := by
  rw [leftJoin, List.mem_flatMap] at hg
  obtain ⟨a, haL, hga⟩ := hg
  refine ⟨a, haL, ?_⟩
  rcases hfil : R.filter (fun b => cond a b) with _ | ⟨b, rest⟩
  · rw [hfil] at hga
    simp only [List.mem_singleton] at hga
    exact ⟨none, hga, by simp⟩
  · rw [hfil] at hga
    simp only at hga
    rw [List.mem_map] at hga
    obtain ⟨b2, hb2, hgb⟩ := hga
    have hb2R : b2 ∈ R.filter (fun b => cond a b) := hfil ▸ hb2
    have := List.mem_filter.mp hb2R
    refine ⟨some b2, hgb.symm, fun b3 hb3 => ?_⟩
    cases hb3
    exact ⟨this.1, this.2⟩

lemma sqlAgg_keys_nodup {rows : List ρ} {key : ρ → Nat} {mk : Nat → σ}
    {keyS : σ → Nat} (hmk : ∀ k, keyS (mk k) = k) :
    (((sqlKeys rows key).map mk).map keyS).Nodup := by
  rw [List.map_map]
  have hcomp : (keyS ∘ mk) = id := funext hmk
  rw [hcomp, List.map_id]
  exact List.nodup_dedup _

end JoinLemmas

lemma f_commits_keys_nodup (commits : List CommitRow) :
    ((f_commits commits).map (·.pr_id)).Nodup :=
  sqlAgg_keys_nodup (fun _ => rfl)

lemma f_changes_keys_nodup (details : List CommitDetailRow) :
    ((f_changes details).map (·.pr_id)).Nodup :=
  sqlAgg_keys_nodup (fun _ => rfl)

lemma f_forcepush_keys_nodup (timeline : List TimelineRow) :
    ((f_forcepush timeline).map (·.pr_id)).Nodup :=
  sqlAgg_keys_nodup (fun _ => rfl)

lemma first_review_keys_nodup (reviews : List ReviewRawRow) :
    ((first_review reviews).map (·.pr_id)).Nodup :=
  sqlAgg_keys_nodup (fun _ => rfl)

lemma f_reviews_map_key (base : List BaseRow) (reviews : List ReviewRawRow) :
    (f_reviews base reviews).map (·.pr_id) = base.map (·.pr_id) :=
  leftJoin_map_key (fun _ _ => rfl)
    (fun _ _ =>
      length_filter_le_one_of_nodup_keys (first_review_keys_nodup reviews) _)

lemma outcomeOf_eq_merged {cl m : Option Int} :
    outcomeOf cl m = "merged" ↔ m.isSome := by
  cases m <;> cases cl <;> simp [outcomeOf]

lemma outcomeOf_eq_closed_unmerged {cl m : Option Int} :
    outcomeOf cl m = "closed_unmerged" ↔ m = none ∧ cl.isSome := by
  cases m <;> cases cl <;> simp [outcomeOf]

lemma outcomeOf_eq_open {cl m : Option Int} :
    outcomeOf cl m = "open" ↔ m = none ∧ cl = none := by
  cases m <;> cases cl <;> simp [outcomeOf]

lemma labeled_mem {tasks : List TaskTypeRow} {prs : List PullRequestRow}
    {b : BaseRow} (hb : b ∈ labeled tasks prs) :
    ∃ a ∈ agentic tasks, ∃ p, b = mkBaseRow a p := by
  rw [labeled, List.mem_flatMap] at hb
  obtain ⟨a, ha, hmem⟩ := hb
  rw [List.mem_map] at hmem
  obtain ⟨p, _, hp⟩ := hmem
  exact ⟨a, ha, p, hp.symm⟩

lemma agentic_mem {tasks : List TaskTypeRow} {a : Nat × String}
    (ha : a ∈ agentic tasks) :
    ∃ t ∈ tasks, t.id = a.1 ∧ t.agent = some a.2 := by
  rw [agentic, List.mem_dedup, List.mem_filterMap] at ha
  obtain ⟨t, ht, hta⟩ := ha
  rcases hag : t.agent with _ | ag
  · rw [hag] at hta; simp at hta
  · rw [hag] at hta
    simp only [Option.map_some'] at hta
    cases hta
    exact ⟨t, ht, rfl, hag⟩

/-- Membership in `rq2_base` decomposed: the originating non-null task
attribution, the label consistency, and the resolved-only filter. -/
lemma rq2_base_spec {tasks : List TaskTypeRow} {prs : List PullRequestRow}
    {b : BaseRow} (hb : b ∈ rq2_base tasks prs) :
    (∃ t ∈ tasks, t.id = b.pr_id ∧ t.agent = some b.agent) ∧
    b.outcome = outcomeOf b.closed_ts b.merged_ts ∧
    b.y_merged = yMergedOf b.merged_ts ∧
    (b.outcome = "merged" ∨ b.outcome = "closed_unmerged") := by
  rw [rq2_base, List.mem_filter] at hb
  obtain ⟨hlab, hfil⟩ := hb
  have hout : b.outcome = "merged" ∨ b.outcome = "closed_unmerged" := by
    rcases Bool.or_eq_true .. |>.mp hfil with h | h
    · exact Or.inl (beq_iff_eq.mp h)
    · exact Or.inr (beq_iff_eq.mp h)
  obtain ⟨a, ha, p, hp⟩ := labeled_mem hlab
  obtain ⟨t, ht, hid, hag⟩ := agentic_mem ha
  subst hp
  exact ⟨⟨t, ht, hid, hag⟩, rfl, rfl, hout⟩

lemma mkReviewRow_pr_id (b : BaseRow) (fr : Option FirstReviewAgg) :
    (mkReviewRow b fr).pr_id = b.pr_id := rfl

lemma mkReviewRow_has_review_zero (b : BaseRow) (fr : Option FirstReviewAgg)
    (h : (mkReviewRow b fr).has_review = 0) :
    (mkReviewRow b fr).hours_to_first_review = none := by
  rcases hts : fr.bind (·.first_review_ts) with _ | t
  · simp [mkReviewRow, hts]
  · simp [mkReviewRow, hts] at h

lemma mkReviewRow_created_none (b : BaseRow) (fr : Option FirstReviewAgg)
    (hc : b.created_ts = none) :
    (mkReviewRow b fr).hours_to_first_review = none := by
  rcases hts : fr.bind (·.first_review_ts) with _ | t <;>
    simp [mkReviewRow, hts, hc]

lemma f_reviews_mem {base : List BaseRow} {reviews : List ReviewRawRow}
    {r : ReviewAgg} (hr : r ∈ f_reviews base reviews) :
    ∃ b ∈ base, ∃ fr : Option FirstReviewAgg, r = mkReviewRow b fr := by
  obtain ⟨b, hb, fr, hfr, _⟩ := leftJoin_mem hr
  exact ⟨b, hb, fr, hfr⟩

/-- Membership in the assembled `rq2_features` table decomposed into the
originating base row and the four optional extractor matches. -/
lemma rq2_features_mem {tasks : List TaskTypeRow} {prs : List PullRequestRow}
    {commits : List CommitRow} {details : List CommitDetailRow}
    {timeline : List TimelineRow} {reviews : List ReviewRawRow}
    {f : FeatureRow}
    (hf : f ∈ rq2_features tasks prs commits details timeline reviews) :
    ∃ b ∈ rq2_base tasks prs,
      ∃ c : Option CommitsAgg, ∃ ch : Option ChangesAgg,
        ∃ fp : Option ForceAgg, ∃ rv : Option ReviewAgg,
          f = mkFeatureRow ((((b, c), ch), fp), rv) ∧
          ∀ r, rv = some r →
            r ∈ f_reviews (rq2_base tasks prs) reviews ∧ r.pr_id = b.pr_id := by
  rw [rq2_features] at hf
  simp only [List.mem_map] at hf
  obtain ⟨x, hx, hfx⟩ := hf
  obtain ⟨x3, hx3, rv, hxrv, hrv⟩ := leftJoin_mem hx
  obtain ⟨x2, hx2, fp, hxfp, -⟩ := leftJoin_mem hx3
  obtain ⟨x1, hx1, ch, hxch, -⟩ := leftJoin_mem hx2
  obtain ⟨b, hb, c, hxc, -⟩ := leftJoin_mem hx1
  subst hxc hxch hxfp hxrv
  refine ⟨b, hb, c, ch, fp, rv, hfx.symm, fun r hr => ?_⟩
  obtain ⟨hrmem, hrcond⟩ := hrv r hr
  exact ⟨hrmem, beq_iff_eq.mp hrcond⟩

lemma wilson_key_lo {p N q : ℝ} (hN : 0 < N) :
    (p + q / (2 * N)) ^ 2 - q * ((p * (1 - p) + q / (4 * N)) / N) =
      p ^ 2 * (1 + q / N) := by
  field_simp
  ring

lemma wilson_key_hi {p N q : ℝ} (hN : 0 < N) :
    ((1 - p) + q / (2 * N)) ^ 2 - q * ((p * (1 - p) + q / (4 * N)) / N) =
      (1 - p) ^ 2 * (1 + q / N) := by
  field_simp
  ring

lemma wilson_sqrt_term {z B : ℝ} (hz : 0 ≤ z) :
    z * Real.sqrt B = Real.sqrt (z ^ 2 * B) := by
  rw [Real.sqrt_mul (sq_nonneg z), Real.sqrt_sq hz]

lemma wilson_half_le {p N : ℝ} {z : ℝ} (hz : 0 ≤ z) (hN : 1 ≤ N)
    (hp0 : 0 ≤ p) (hp1 : p ≤ 1) :
    z * Real.sqrt ((p * (1 - p) + z * z / (4 * N)) / N) ≤ p + z * z / (2 * N) ∧
    z * Real.sqrt ((p * (1 - p) + z * z / (4 * N)) / N) ≤
      (1 - p) + z * z / (2 * N) := by
  have hN0 : (0 : ℝ) < N := by linarith
  have hq : 0 ≤ z * z / (2 * N) := by positivity
  rw [wilson_sqrt_term hz]
  have hnn : (0 : ℝ) ≤ 1 + z * z / N := by positivity
  constructor
  · rw [Real.sqrt_le_left (by linarith)]
    rw [show (z : ℝ) ^ 2 = z * z from by ring]
    have hkey := wilson_key_lo (p := p) (q := z * z) hN0
    have hpos : 0 ≤ p ^ 2 * (1 + z * z / N) := mul_nonneg (sq_nonneg p) hnn
    linarith
  · rw [Real.sqrt_le_left (by linarith)]
    rw [show (z : ℝ) ^ 2 = z * z from by ring]
    have hkey := wilson_key_hi (p := p) (q := z * z) hN0
    have hpos : 0 ≤ (1 - p) ^ 2 * (1 + z * z / N) :=
      mul_nonneg (sq_nonneg (1 - p)) hnn
    linarith

/-- For `1 ≤ n` the Wilson estimator yields a well-defined triple whose
interval part lies inside `[0, 1]`. -/
lemma wilson_ci_bounds {k n : Nat} (hk : k ≤ n) (hn : 1 ≤ n) {z : ℝ}
    (hz : 0 ≤ z) :
    ∃ p lo hi, wilson_ci k n z = some (p, lo, hi) ∧
      0 ≤ lo ∧ lo ≤ hi ∧ hi ≤ 1 := by
  have hn0 : n ≠ 0 := by omega
  have hN : (1 : ℝ) ≤ (n : ℝ) := by exact_mod_cast hn
  have hN0 : (0 : ℝ) < (n : ℝ) := by linarith
  have hp0 : (0 : ℝ) ≤ (k : ℝ) / (n : ℝ) :=
    div_nonneg (Nat.cast_nonneg k) hN0.le
  have hp1 : (k : ℝ) / (n : ℝ) ≤ 1 :=
    (div_le_one hN0).mpr (by exact_mod_cast hk)
  have hden : (0 : ℝ) < 1 + z * z / (n : ℝ) := by positivity
  have hhalf := wilson_half_le (N := (n : ℝ)) hz hN hp0 hp1
  have hH : 0 ≤ z * Real.sqrt
      (((k : ℝ) / (n : ℝ) * (1 - (k : ℝ) / (n : ℝ)) + z * z / (4 * (n : ℝ))) /
        (n : ℝ)) :=
    mul_nonneg hz (Real.sqrt_nonneg _)
  have hhalfdiv : 0 ≤ (z * Real.sqrt
      (((k : ℝ) / (n : ℝ) * (1 - (k : ℝ) / (n : ℝ)) + z * z / (4 * (n : ℝ))) /
        (n : ℝ))) / (1 + z * z / (n : ℝ)) := div_nonneg hH hden.le
  have hsum : z * z / (2 * (n : ℝ)) + z * z / (2 * (n : ℝ)) =
      z * z / (n : ℝ) := by ring
  simp only [wilson_ci, hn0, if_false]
  refine ⟨_, _, _, rfl, ?_, ?_, ?_⟩
  · rw [div_sub_div_same]
    exact div_nonneg (by linarith [hhalf.1]) hden.le
  · linarith [hhalfdiv]
  · rw [div_add_div_same, div_le_one hden]
    linarith [hhalf.2]

/-- C1: for every pull-request record the outcome label follows the
precedence rule — merged timestamp present → "merged"; else closed present
and merged absent → "closed_unmerged"; else "open" — the binary merged
indicator is 1 exactly when the merged timestamp is present, and every
labeled row carries exactly these derived fields. -/
theorem C1_outcome_precedence (cl m : Option Int) :
    (m.isSome → outcomeOf cl m = "merged") ∧
    (m = none → cl.isSome → outcomeOf cl m = "closed_unmerged") ∧
    (m = none → cl = none → outcomeOf cl m = "open") ∧
    (yMergedOf m = 1 ↔ m.isSome) ∧
    (∀ tasks prs, ∀ b ∈ labeled tasks prs,
      b.outcome = outcomeOf b.closed_ts b.merged_ts ∧
      b.y_merged = yMergedOf b.merged_ts) := by
  refine ⟨?_, ?_, ?_, ?_, ?_⟩
  · intro hm; exact outcomeOf_eq_merged.mpr hm
  · intro hm hcl; exact outcomeOf_eq_closed_unmerged.mpr ⟨hm, hcl⟩
  · intro hm hcl; exact outcomeOf_eq_open.mpr ⟨hm, hcl⟩
  · cases m <;> simp [yMergedOf]
  · intro tasks prs b hb
    obtain ⟨a, -, p, hp⟩ := labeled_mem hb
    subst hp
    exact ⟨rfl, rfl⟩

/-- Witness for C1 at concrete timestamp configurations. -/
theorem C1_outcome_precedence_witness :
    outcomeOf none (some 5) = "merged" ∧
    outcomeOf (some 3) none = "closed_unmerged" ∧
    outcomeOf none none = "open" :=
  ⟨(C1_outcome_precedence none (some 5)).1 rfl,
   (C1_outcome_precedence (some 3) none).2.1 rfl rfl,
   (C1_outcome_precedence none none).2.2.1 rfl rfl⟩

/-- C4: commit_bucket is monotonically non-decreasing, maps counts ≤ 1 to
1, 2/3/4 to themselves, saturates at 5 from 5 on (hence 0 → 1, 2 → 2,
7 → 5), and every feature row's bucket is this total function of its
commit count. -/
theorem C4_commit_bucket_props (m n : Nat) (hmn : m ≤ n) :
    commit_bucket m ≤ commit_bucket n ∧
    (n ≤ 1 → commit_bucket n = 1) ∧
    commit_bucket 2 = 2 ∧ commit_bucket 3 = 3 ∧ commit_bucket 4 = 4 ∧
    (5 ≤ n → commit_bucket n = 5) ∧
    commit_bucket 0 = 1 ∧ commit_bucket 7 = 5 ∧
    (∀ tasks prs commits details timeline reviews,
      ∀ f ∈ rq2_features tasks prs commits details timeline reviews,
        f.commit_bucket = commit_bucket f.n_commits) := by
  refine ⟨?_, ?_, rfl, rfl, rfl, ?_, rfl, rfl, ?_⟩
  · unfold commit_bucket; split_ifs <;> omega
  · intro h; unfold commit_bucket; split_ifs; omega
  · intro h; unfold commit_bucket; split_ifs <;> omega
  · intro tasks prs commits details timeline reviews f hf
    obtain ⟨b, -, c, ch, fp, rv, hfx, -⟩ := rq2_features_mem hf
    subst hfx
    rfl

/-- Witness for C4 at the claim's example inputs 0 ≤ 5. -/
theorem C4_commit_bucket_props_witness :
    commit_bucket 0 ≤ commit_bucket 5 :=
  (C4_commit_bucket_props 0 5 (by decide)).1

/-- C6: the Wilson estimator returns the NaN triple (modelled as `none`)
when n = 0, explicitly and without a division error, and for n > 0 returns
(p, center − half, center + half) with center (p + z²/2n)/(1 + z²/n) and
half-width z·sqrt((p(1−p) + z²/4n)/n)/(1 + z²/n), p = k/n. -/
theorem C6_wilson_formula (k n : Nat) (z : ℝ) (hn : n ≠ 0) :
    wilson_ci k 0 z = none ∧
    wilson_ci k n z =
      some ((k : ℝ) / (n : ℝ),
        ((k : ℝ) / (n : ℝ) + z * z / (2 * (n : ℝ))) / (1 + z * z / (n : ℝ)) -
          (z * Real.sqrt (((k : ℝ) / (n : ℝ) * (1 - (k : ℝ) / (n : ℝ)) +
            z * z / (4 * (n : ℝ))) / (n : ℝ))) / (1 + z * z / (n : ℝ)),
        ((k : ℝ) / (n : ℝ) + z * z / (2 * (n : ℝ))) / (1 + z * z / (n : ℝ)) +
          (z * Real.sqrt (((k : ℝ) / (n : ℝ) * (1 - (k : ℝ) / (n : ℝ)) +
            z * z / (4 * (n : ℝ))) / (n : ℝ))) / (1 + z * z / (n : ℝ))) := by
  constructor
  · rfl
  · simp only [wilson_ci, hn, if_false]

/-- Witness for C6 at k = 1, n = 2, z = 0. -/
theorem C6_wilson_formula_witness :
    wilson_ci 1 0 0 = none :=
  (C6_wilson_formula 1 2 0 (by decide)).1

/-- C2: every row of the assembled feature table stems from an eligible
pull request — a non-null agent attribution in `pr_task_type` and at least
one of the closed/merged timestamps non-null — and the originating labeled
row's outcome is never "open"; null-agent and still-open pull requests are
excluded. -/
theorem C2_feature_rows_eligible
    (tasks : List TaskTypeRow) (prs : List PullRequestRow)
    (commits : List CommitRow) (details : List CommitDetailRow)
    (timeline : List TimelineRow) (reviews : List ReviewRawRow)
    (f : FeatureRow)
    (hf : f ∈ rq2_features tasks prs commits details timeline reviews) :
    ∃ b ∈ rq2_base tasks prs,
      f.pr_id = b.pr_id ∧ f.agent = b.agent ∧ f.y_merged = b.y_merged ∧
      (∃ t ∈ tasks, t.id = b.pr_id ∧ t.agent = some b.agent) ∧
      (b.closed_ts.isSome ∨ b.merged_ts.isSome) ∧
      b.outcome ≠ "open" ∧
      (b.outcome = "merged" ∨ b.outcome = "closed_unmerged") := by
  obtain ⟨b, hb, c, ch, fp, rv, hfx, -⟩ := rq2_features_mem hf
  obtain ⟨htask, hout, hy, hcase⟩ := rq2_base_spec hb
  subst hfx
  refine ⟨b, hb, rfl, rfl, rfl, htask, ?_, ?_, hcase⟩
  · rcases hcase with h | h
    · right
      rw [hout] at h
      exact outcomeOf_eq_merged.mp h
    · left
      rw [hout] at h
      exact (outcomeOf_eq_closed_unmerged.mp h).2
  · rcases hcase with h | h <;> rw [h] <;> decide

/-- Witness for C2 on a one-row instance: an agentic merged pull request
yields a feature row, and the theorem recovers its eligible base row. -/
theorem C2_feature_rows_eligible_witness :
    ∃ b ∈ rq2_base [⟨1, some "A"⟩]
        [⟨1, 7, 3, RawCell.ts 0, RawCell.null, RawCell.ts 50⟩],
      (⟨1, 7, "A", 1, 0, 1, 0, 0, 0, 0, 0, none⟩ : FeatureRow).pr_id = b.pr_id ∧
      (⟨1, 7, "A", 1, 0, 1, 0, 0, 0, 0, 0, none⟩ : FeatureRow).agent = b.agent ∧
      (⟨1, 7, "A", 1, 0, 1, 0, 0, 0, 0, 0, none⟩ : FeatureRow).y_merged =
        b.y_merged ∧
      (∃ t ∈ [(⟨1, some "A"⟩ : TaskTypeRow)],
        t.id = b.pr_id ∧ t.agent = some b.agent) ∧
      (b.closed_ts.isSome ∨ b.merged_ts.isSome) ∧
      b.outcome ≠ "open" ∧
      (b.outcome = "merged" ∨ b.outcome = "closed_unmerged") :=
  C2_feature_rows_eligible [⟨1, some "A"⟩]
    [⟨1, 7, 3, RawCell.ts 0, RawCell.null, RawCell.ts 50⟩] [] [] [] []
    ⟨1, 7, "A", 1, 0, 1, 0, 0, 0, 0, 0, none⟩ (by decide)

/-- C3: on every feature row the review-latency transform maps a present
value to log1p of its 0-clamped value, an absent value to exactly 0.0, and
any row with has_review = 0 to exactly 0.0. -/
theorem C3_log1p_hours
    (tasks : List TaskTypeRow) (prs : List PullRequestRow)
    (commits : List CommitRow) (details : List CommitDetailRow)
    (timeline : List TimelineRow) (reviews : List ReviewRawRow)
    (f : FeatureRow)
    (hf : f ∈ rq2_features tasks prs commits details timeline reviews) :
    (∀ h : Int, f.hours_to_first_review = some h →
      log1p_hours_to_first_review f.hours_to_first_review =
        log1p ((max h 0 : Int) : ℝ)) ∧
    (f.hours_to_first_review = none →
      log1p_hours_to_first_review f.hours_to_first_review = 0) ∧
    (f.has_review = 0 →
      log1p_hours_to_first_review f.hours_to_first_review = 0) := by
  refine ⟨?_, ?_, ?_⟩
  · intro h hh
    rw [hh]
    rfl
  · intro hh
    rw [hh]
    rfl
  · intro hr
    obtain ⟨b, hb, c, ch, fp, rv, hfx, hrv⟩ := rq2_features_mem hf
    subst hfx
    rcases rv with _ | r
    · rfl
    · have hrmem := (hrv r rfl).1
      obtain ⟨b2, hb2, fr, hfr⟩ := f_reviews_mem hrmem
      subst hfr
      have hnone := mkReviewRow_has_review_zero b2 fr hr
      show log1p_hours_to_first_review
        ((mkReviewRow b2 fr).hours_to_first_review) = 0
      rw [hnone]
      rfl

/-- Witness for C3 on a one-row instance with no reviews at all:
has_review = 0 and the transform output is exactly 0. -/
theorem C3_log1p_hours_witness :
    log1p_hours_to_first_review
      (⟨1, 7, "A", 1, 0, 1, 0, 0, 0, 0, 0, none⟩ : FeatureRow).hours_to_first_review
      = 0 :=
  (C3_log1p_hours [⟨1, some "A"⟩]
    [⟨1, 7, 3, RawCell.ts 0, RawCell.null, RawCell.ts 50⟩] [] [] [] []
    ⟨1, 7, "A", 1, 0, 1, 0, 0, 0, 0, 0, none⟩ (by decide)).2.2 rfl

/-- C10: a feature row with has_review = 1 whose base row has a null (or
unparsable, hence null) creation timestamp carries null hours, and its
transformed review latency is the sentinel 0.0 — the same value produced
for a never-reviewed row. -/
theorem C10_sentinel_conflation
    (tasks : List TaskTypeRow) (prs : List PullRequestRow)
    (commits : List CommitRow) (details : List CommitDetailRow)
    (timeline : List TimelineRow) (reviews : List ReviewRawRow)
    (f : FeatureRow)
    (hf : f ∈ rq2_features tasks prs commits details timeline reviews)
    (hr : f.has_review = 1)
    (hc : ∀ b ∈ rq2_base tasks prs, b.pr_id = f.pr_id → b.created_ts = none) :
    f.hours_to_first_review = none ∧
    log1p_hours_to_first_review f.hours_to_first_review = 0 ∧
    log1p_hours_to_first_review f.hours_to_first_review =
      log1p_hours_to_first_review none := by
  obtain ⟨b, hb, c, ch, fp, rv, hfx, hrv⟩ := rq2_features_mem hf
  subst hfx
  rcases rv with _ | r
  · exact ⟨rfl, rfl, rfl⟩
  · obtain ⟨hrmem, hrpr⟩ := hrv r rfl
    obtain ⟨b2, hb2, fr, hfr⟩ := f_reviews_mem hrmem
    subst hfr
    have hpr : b2.pr_id = b.pr_id := by rw [← hrpr]; rfl
    have hcre : b2.created_ts = none := hc b2 hb2 hpr
    have hnone := mkReviewRow_created_none b2 fr hcre
    refine ⟨hnone, ?_, ?_⟩
    · show log1p_hours_to_first_review
        ((mkReviewRow b2 fr).hours_to_first_review) = 0
      rw [hnone]
      rfl
    · show log1p_hours_to_first_review
        ((mkReviewRow b2 fr).hours_to_first_review) =
          log1p_hours_to_first_review none
      rw [hnone]

/-- The assembling join chain of `rq2_features`, written out explicitly. -/
lemma rq2_features_eq (tasks : List TaskTypeRow) (prs : List PullRequestRow)
    (commits : List CommitRow) (details : List CommitDetailRow)
    (timeline : List TimelineRow) (reviews : List ReviewRawRow) :
    rq2_features tasks prs commits details timeline reviews =
      (leftJoin (leftJoin (leftJoin (leftJoin (rq2_base tasks prs)
          (f_commits commits) (fun b c => c.pr_id == b.pr_id) Prod.mk)
          (f_changes details) (fun x ch => ch.pr_id == x.1.pr_id) Prod.mk)
          (f_forcepush timeline) (fun x fp => fp.pr_id == x.1.1.pr_id) Prod.mk)
          (f_reviews (rq2_base tasks prs) reviews)
          (fun x rv => rv.pr_id == x.1.1.1.pr_id) Prod.mk).map mkFeatureRow :=
  rfl

/-- Counterexample to C5 as stated: two distinct (id, agent) rows in
`pr_task_type` for the same pull request give the labeler output two rows
with the same identifier; the review block is built per labeled row, so the
final left join fans out and the feature table is strictly larger than the
labeler output (4 rows versus 2). -/
theorem C5_left_join_lossless_counterexample :
    (rq2_features [⟨1, some "A"⟩, ⟨1, some "B"⟩]
        [⟨1, 10, 100, RawCell.null, RawCell.null, RawCell.ts 5⟩]
        [] [] [] []).length ≠
      (rq2_base [⟨1, some "A"⟩, ⟨1, some "B"⟩]
        [⟨1, 10, 100, RawCell.null, RawCell.null, RawCell.ts 5⟩]).length := by
  decide

/-- C5 (amended): provided the labeler output has pairwise distinct
pull-request identifiers, the assembled feature table has exactly as many
rows as the labeler output — no matter how many extractor blocks have zero
matches — and each feature row's identifier matches exactly one labeled
row. -/
theorem C5_left_join_lossless
    (tasks : List TaskTypeRow) (prs : List PullRequestRow)
    (commits : List CommitRow) (details : List CommitDetailRow)
    (timeline : List TimelineRow) (reviews : List ReviewRawRow)
    (hnd : ((rq2_base tasks prs).map (fun b => b.pr_id)).Nodup) :
    (rq2_features tasks prs commits details timeline reviews).length =
      (rq2_base tasks prs).length ∧
    ∀ f ∈ rq2_features tasks prs commits details timeline reviews,
      ((rq2_base tasks prs).filter
        (fun b => b.pr_id == f.pr_id)).length = 1 := by
  have h4nd : ((f_reviews (rq2_base tasks prs) reviews).map
      (fun r => r.pr_id)).Nodup := by
    rw [f_reviews_map_key]
    exact hnd
  have c1 : ∀ a ∈ rq2_base tasks prs,
      ((f_commits commits).filter
        (fun c => c.pr_id == a.pr_id)).length ≤ 1 :=
    fun a _ =>
      length_filter_le_one_of_nodup_keys (f_commits_keys_nodup commits) _
  have c2 : ∀ x ∈ leftJoin (rq2_base tasks prs) (f_commits commits)
        (fun b c => c.pr_id == b.pr_id) Prod.mk,
      ((f_changes details).filter
        (fun ch => ch.pr_id == x.1.pr_id)).length ≤ 1 :=
    fun x _ =>
      length_filter_le_one_of_nodup_keys (f_changes_keys_nodup details) _
  have c3 : ∀ x ∈ leftJoin (leftJoin (rq2_base tasks prs) (f_commits commits)
        (fun b c => c.pr_id == b.pr_id) Prod.mk)
        (f_changes details) (fun x ch => ch.pr_id == x.1.pr_id) Prod.mk,
      ((f_forcepush timeline).filter
        (fun fp => fp.pr_id == x.1.1.pr_id)).length ≤ 1 :=
    fun x _ =>
      length_filter_le_one_of_nodup_keys (f_forcepush_keys_nodup timeline) _
  have c4 : ∀ x ∈ leftJoin (leftJoin (leftJoin (rq2_base tasks prs)
        (f_commits commits) (fun b c => c.pr_id == b.pr_id) Prod.mk)
        (f_changes details) (fun x ch => ch.pr_id == x.1.pr_id) Prod.mk)
        (f_forcepush timeline) (fun x fp => fp.pr_id == x.1.1.pr_id) Prod.mk,
      ((f_reviews (rq2_base tasks prs) reviews).filter
        (fun rv => rv.pr_id == x.1.1.1.pr_id)).length ≤ 1 :=
    fun x _ => length_filter_le_one_of_nodup_keys h4nd _
  have l1 := @leftJoin_length _ _ _ _ _ _ Prod.mk c1
  have l2 := @leftJoin_length _ _ _ _ _ _ Prod.mk c2
  have l3 := @leftJoin_length _ _ _ _ _ _ Prod.mk c3
  have l4 := @leftJoin_length _ _ _ _ _ _ Prod.mk c4
  have e1 := @leftJoin_map_key _ _ _ _ _ _ Prod.mk
    (fun y => y.1.pr_id) (fun b => b.pr_id) (fun a ob => rfl) c1
  have e2 := @leftJoin_map_key _ _ _ _ _ _ Prod.mk
    (fun y => y.1.1.pr_id) (fun x => x.1.pr_id) (fun a ob => rfl) c2
  have e3 := @leftJoin_map_key _ _ _ _ _ _ Prod.mk
    (fun y => y.1.1.1.pr_id) (fun x => x.1.1.pr_id) (fun a ob => rfl) c3
  have e4 := @leftJoin_map_key _ _ _ _ _ _ Prod.mk
    (fun y => y.1.1.1.1.pr_id) (fun x => x.1.1.1.pr_id) (fun a ob => rfl) c4
  have hkeys : (rq2_features tasks prs commits details timeline reviews).map
      (fun f => f.pr_id) = (rq2_base tasks prs).map (fun b => b.pr_id) := by
    rw [rq2_features_eq, List.map_map]
    have ecomp : ((fun f : FeatureRow => f.pr_id) ∘ mkFeatureRow) =
        (fun y : (((BaseRow × Option CommitsAgg) × Option ChangesAgg) ×
            Option ForceAgg) × Option ReviewAgg => y.1.1.1.1.pr_id) := rfl
    rw [ecomp]
    exact e4.trans (e3.trans (e2.trans e1))
  constructor
  · rw [rq2_features_eq, List.length_map]
    exact l4.trans (l3.trans (l2.trans l1))
  · intro f hf
    have hfpr : f.pr_id ∈ (rq2_base tasks prs).map (fun b => b.pr_id) := by
      rw [← hkeys]
      exact List.mem_map_of_mem _ hf
    exact Nat.le_antisymm
      (length_filter_le_one_of_nodup_keys hnd _)
      (one_le_length_filter_of_mem_map hfpr)

/-- Witness for C5 on a one-row instance with distinct identifiers and no
extractor matches at all. -/
theorem C5_left_join_lossless_witness :
    (rq2_features [⟨1, some "A"⟩]
        [⟨1, 10, 100, RawCell.null, RawCell.null, RawCell.ts 5⟩]
        [] [] [] []).length =
      (rq2_base [⟨1, some "A"⟩]
        [⟨1, 10, 100, RawCell.null, RawCell.null, RawCell.ts 5⟩]).length :=
  (C5_left_join_lossless [⟨1, some "A"⟩]
    [⟨1, 10, 100, RawCell.null, RawCell.null, RawCell.ts 5⟩]
    [] [] [] [] (by decide)).1

/-- C7: for every valid k ≤ n with n ≥ 1 at z = 1.96 the returned Wilson
interval is contained in [0, 1]; for k = 5, n = 10 the returned share p is
exactly 1/2, the interval is symmetric around 1/2 (lo + hi = 1), and its
width is less than 1. -/
theorem C7_wilson_in_unit_interval (k n : Nat) (hk : k ≤ n) (hn : 1 ≤ n) :
    (∃ p lo hi, wilson_ci k n (1.96 : ℝ) = some (p, lo, hi) ∧
      0 ≤ lo ∧ lo ≤ hi ∧ hi ≤ 1) ∧
    (∃ p lo hi, wilson_ci 5 10 (1.96 : ℝ) = some (p, lo, hi) ∧
      p = 1 / 2 ∧ lo + hi = 1 ∧ hi - lo < 1) := by
  constructor
  · exact wilson_ci_bounds hk hn (by norm_num)
  · have h10 : (10 : Nat) ≠ 0 := by decide
    simp only [wilson_ci, h10, if_false]
    refine ⟨_, _, _, rfl, ?_, ?_, ?_⟩
    · norm_num
    · push_cast
      ring_nf
    · push_cast
      ring_nf
      have hs : Real.sqrt (8651 / 250000) < 47 / 250 := by
        rw [Real.sqrt_lt' (by norm_num)]
        norm_num
      linarith [hs]

/-- Witness for C7 at k = 5, n = 10. -/
theorem C7_wilson_in_unit_interval_witness :
    ∃ p lo hi, wilson_ci 5 10 (1.96 : ℝ) = some (p, lo, hi) ∧
      0 ≤ lo ∧ lo ≤ hi ∧ hi ≤ 1 :=
  (C7_wilson_in_unit_interval 5 10 (by norm_num) (by norm_num)).1

/-- C8: every row of the emitted odds-ratio table satisfies
odds_ratio = exp(coef), ci_low = exp(coef − 1.96·SE) and
ci_high = exp(coef + 1.96·SE), with SE the fitted model's cluster-robust
standard error — the 95% Wald interval is computed on the log scale and
exponentiated, not refit in odds-ratio space. -/
theorem C8_or_table (res : List CoefEntry) (r : ORRow)
    (hr : r ∈ tidy_or_table res) :
    ∃ e ∈ res, r.term = e.term ∧ r.coef = e.coef ∧
      r.odds_ratio = Real.exp e.coef ∧
      r.ci_low = Real.exp (e.coef - 1.96 * e.bse) ∧
      r.ci_high = Real.exp (e.coef + 1.96 * e.bse) ∧
      r.p = e.pvalue := by
  rw [tidy_or_table, List.mem_map] at hr
  obtain ⟨e, he, hre⟩ := hr
  subst hre
  exact ⟨e, he, rfl, rfl, rfl, rfl, rfl, rfl⟩

/-- Witness for C8 on a one-coefficient table. -/
theorem C8_or_table_witness :
    ∃ e ∈ [(⟨"term0", 0, 1, 0⟩ : CoefEntry)],
      (⟨"term0", 0, Real.exp 0, Real.exp (0 - 1.96 * 1),
        Real.exp (0 + 1.96 * 1), 0⟩ : ORRow).term = e.term ∧
      (⟨"term0", 0, Real.exp 0, Real.exp (0 - 1.96 * 1),
        Real.exp (0 + 1.96 * 1), 0⟩ : ORRow).coef = e.coef ∧
      (⟨"term0", 0, Real.exp 0, Real.exp (0 - 1.96 * 1),
        Real.exp (0 + 1.96 * 1), 0⟩ : ORRow).odds_ratio = Real.exp e.coef ∧
      (⟨"term0", 0, Real.exp 0, Real.exp (0 - 1.96 * 1),
        Real.exp (0 + 1.96 * 1), 0⟩ : ORRow).ci_low =
        Real.exp (e.coef - 1.96 * e.bse) ∧
      (⟨"term0", 0, Real.exp 0, Real.exp (0 - 1.96 * 1),
        Real.exp (0 + 1.96 * 1), 0⟩ : ORRow).ci_high =
        Real.exp (e.coef + 1.96 * e.bse) ∧
      (⟨"term0", 0, Real.exp 0, Real.exp (0 - 1.96 * 1),
        Real.exp (0 + 1.96 * 1), 0⟩ : ORRow).p = e.pvalue :=
  C8_or_table [⟨"term0", 0, 1, 0⟩]
    ⟨"term0", 0, Real.exp 0, Real.exp (0 - 1.96 * 1),
      Real.exp (0 + 1.96 * 1), 0⟩
    (List.mem_singleton.mpr rfl)

/-- Counterexample to C9 as stated over both cited labeling queries: the
RQ1 labeling query casts strictly, so one unparsable created_at value
aborts the whole run with a conversion error instead of degrading to null
for that row. -/
theorem C9_permissive_cast_counterexample :
    rq1_labeled [⟨1, some "A", 2, RawCell.unparsable "not-a-date",
      RawCell.null, RawCell.null⟩] = Except.error "not-a-date" := rfl

/-- C9 (amended): in the RQ2 feature pipeline's Outcome Labeler an
unparsable timestamp value degrades to null for that row (TRY_CAST) and
the run fails only when a required timestamp column is entirely absent;
the RQ1 labeling query instead casts strictly and errors on an unparsable
value. -/
theorem C9_permissive_cast
    (tasks : List TaskTypeRow) (t : PullRequestTable) (s : String)
    (hcols : t.has_created_at = true ∧ t.has_closed_at = true ∧
      t.has_merged_at = true) :
    rq2BaseRun tasks t = Except.ok (rq2_base tasks t.rows) ∧
    tryCastTimestamp (RawCell.unparsable s) = none ∧
    (∀ p : PullRequestRow, p.created_at = RawCell.unparsable s →
      (prView p).created_ts = none) ∧
    (∀ t2 : PullRequestTable,
      ¬(t2.has_created_at = true ∧ t2.has_closed_at = true ∧
        t2.has_merged_at = true) →
      rq2BaseRun tasks t2 = Except.error "Binder Error: column not found") ∧
    castTimestamp (RawCell.unparsable s) = Except.error s := by
  obtain ⟨h1, h2, h3⟩ := hcols
  refine ⟨?_, rfl, ?_, ?_, rfl⟩
  · rw [rq2BaseRun, h1, h2, h3]
    rfl
  · intro p hp
    simp [prView, hp, tryCastTimestamp]
  · intro t2 ht2
    have hfalse : ¬(t2.has_created_at && t2.has_closed_at &&
        t2.has_merged_at) = true := by
      intro hAll
      rw [Bool.and_eq_true, Bool.and_eq_true] at hAll
      exact ht2 ⟨hAll.1.1, hAll.1.2, hAll.2⟩
    rw [rq2BaseRun, if_neg hfalse]

/-- Witness for C9 on a one-row table with all columns present and an
unparsable created_at cell. -/
theorem C9_permissive_cast_witness :
    rq2BaseRun [⟨1, some "A"⟩]
        ⟨true, true, true,
          [⟨1, 7, 3, RawCell.unparsable "xx", RawCell.null, RawCell.ts 5⟩]⟩ =
      Except.ok (rq2_base [⟨1, some "A"⟩]
        [⟨1, 7, 3, RawCell.unparsable "xx", RawCell.null, RawCell.ts 5⟩]) :=
  (C9_permissive_cast [⟨1, some "A"⟩]
    ⟨true, true, true,
      [⟨1, 7, 3, RawCell.unparsable "xx", RawCell.null, RawCell.ts 5⟩]⟩
    "xx" ⟨rfl, rfl, rfl⟩).1

/-- Witness for C10: a reviewed pull request whose created_at is
unparsable — has_review = 1 yet hours is null. -/
theorem C10_sentinel_conflation_witness :
    (⟨1, 7, "A", 1, 0, 1, 0, 0, 0, 0, 1, none⟩ : FeatureRow).hours_to_first_review
      = none :=
  (C10_sentinel_conflation [⟨1, some "A"⟩]
    [⟨1, 7, 3, RawCell.unparsable "not-a-date", RawCell.null, RawCell.ts 50⟩]
    [] [] [] [⟨1, RawCell.ts 60⟩]
    ⟨1, 7, "A", 1, 0, 1, 0, 0, 0, 0, 1, none⟩
    (by decide) rfl (by decide)).1

end MSR2026
